import Mathlib

/-!
Verification of the parallel-claude worker registry and lifecycle logic.

This file gives a shallow embedding of the TypeScript sources:
  src/lib/config.ts   (data model and constants)
  src/lib/workers.ts  (persisted registry and identity/allocation service)
  src/commands/spawn.ts, src/commands/cleanup.ts (lifecycle manager)

External effects (file system, child processes, AppleScript calls into the
terminal application) are modelled by explicit outcome parameters: each
operation that may fail at such a boundary takes the outcome of that boundary
call as an argument, and the persisted registry state is threaded explicitly
through every operation (each TypeScript helper does load-mutate-save on the
single state file; the embedding passes the state value instead).
-/

namespace ParallelClaude

/-- Worker status, from the status union of the Worker interface in config.ts. -/
inductive Status
  | settingUp
  | running
  | stopped
  | failed
  deriving DecidableEq, Repr

/-- Worker record, from the Worker interface in config.ts. -/
structure Worker where
  id : String
  name : String
  repoUrl : String
  repoName : String
  branch : String
  task : String
  directory : String
  port : Nat
  pid : Option Nat := none
  terminalTab : Option String := none
  createdAt : String
  status : Status
  deriving DecidableEq, Repr

/-- Persisted registry state, from the State interface in config.ts. -/
structure State where
  workers : List Worker
  nextPortOffset : Nat
  itermWindowId : Option String := none
  deriving DecidableEq, Repr

/-- DEFAULT_STATE from config.ts. -/
def DEFAULT_STATE : State := { workers := [], nextPortOffset := 0 }

namespace CONFIG

/-- CONFIG.basePort from config.ts. -/
def basePort : Nat := 3100

/-- CONFIG.portIncrement from config.ts. -/
def portIncrement : Nat := 10

end CONFIG

/-- Outcome of attempting to read the persisted state file: the file may be
absent (existsSync false), reading it may throw, or it yields raw text. -/
inductive DiskRead
  | absent
  | readError
  | content (data : String)

/-- loadState from workers.ts. The whole body sits in a try/catch whose catch
clause is empty, so a read error or a parse error (modelled by the parseJson
argument returning an error) falls through to the default state. -/
def loadState (disk : DiskRead) (parseJson : String → Except Unit State) : State :=
  match disk with
  | .absent => DEFAULT_STATE
  | .readError => DEFAULT_STATE
  | .content data =>
    match parseJson data with
    | .error _ => DEFAULT_STATE
    | .ok st => st

/-- addWorker from workers.ts: push the record and bump nextPortOffset. -/
def addWorker (w : Worker) (s : State) : State :=
  { s with workers := s.workers ++ [w], nextPortOffset := s.nextPortOffset + 1 }

/-- The predicate used by findIndex / find in workers.ts lookups:
w.name === nameOrId or w.id === nameOrId. -/
def matchesB (nameOrId : String) (w : Worker) : Bool :=
  w.name == nameOrId || w.id == nameOrId

/-- findIndex followed by splice(index, 1): remove the first element
satisfying p, returning it and the remaining list. -/
def removeFirst (p : Worker → Bool) : List Worker → Option Worker × List Worker
  | [] => (none, [])
  | w :: ws =>
    if p w then (some w, ws)
    else
      let r := removeFirst p ws
      (r.1, w :: r.2)

/-- removeWorker from workers.ts: on a miss it returns undefined without
saving; on a hit it splices the record out and saves. -/
def removeWorker (nameOrId : String) (s : State) : Option Worker × State :=
  match removeFirst (matchesB nameOrId) s.workers with
  | (none, _) => (none, s)
  | (some w, ws) => (some w, { s with workers := ws })

/-- getWorker from workers.ts. -/
def getWorker (nameOrId : String) (s : State) : Option Worker :=
  s.workers.find? (matchesB nameOrId)

/-- Array.prototype.find followed by in-place mutation of the found element:
apply f to the first element satisfying p. -/
def updateFirst (p : Worker → Bool) (f : Worker → Worker) : List Worker → List Worker
  | [] => []
  | w :: ws => if p w then f w :: ws else w :: updateFirst p f ws

/-- updateWorkerStatus from workers.ts: set status on the first match, then
Object.assign the extra updates, then save; a miss saves nothing. -/
def updateWorkerStatus (nameOrId : String) (st : Status) (updates : Worker → Worker)
    (s : State) : State :=
  { s with workers := updateFirst (matchesB nameOrId) (fun w => updates { w with status := st }) s.workers }

/-- getNextPort from workers.ts: a pure read, no increment. -/
def getNextPort (s : State) : Nat :=
  CONFIG.basePort + s.nextPortOffset * CONFIG.portIncrement

/-- setItermWindowId from workers.ts. -/
def setItermWindowId (windowId : String) (s : State) : State :=
  { s with itermWindowId := some windowId }

/-- clearItermWindowId from workers.ts. -/
def clearItermWindowId (s : State) : State :=
  { s with itermWindowId := none }

/-- The adjectives word list from workers.ts. -/
def adjectives : List String :=
  ["swift", "brave", "calm", "bright", "bold", "keen", "wise", "quick",
   "sharp", "cool", "warm", "fair", "pure", "true", "kind", "proud"]

/-- The animals word list from workers.ts. -/
def animals : List String :=
  ["fox", "owl", "eagle", "wolf", "bear", "hawk", "deer", "lion",
   "tiger", "raven", "falcon", "panther", "jaguar", "leopard", "lynx", "otter"]

/-- One attempt of the loop body of generateWorkerName: the two
Math.floor(Math.random() * 16) draws give indices below 16. -/
def drawnName (d : Fin 16 × Fin 16) : String :=
  adjectives.getD d.1.val "" ++ "-" ++ animals.getD d.2.val ""

/-- The 100-iteration retry loop of generateWorkerName; i is the attempt
index (feeding the draw oracle), the last argument the remaining attempts.
Exhausting the attempts yields the Date.now() fallback. -/
def generateWorkerNameLoop (existing : List String) (draws : Nat → Fin 16 × Fin 16)
    (now : Nat) (i : Nat) : Nat → String
  | 0 => "worker-" ++ toString now
  | fuel + 1 =>
    let name := drawnName (draws i)
    if name ∈ existing then generateWorkerNameLoop existing draws now (i + 1) fuel
    else name

/-- generateWorkerName from workers.ts, with the stream of random draws and
the Date.now() clock passed explicitly. -/
def generateWorkerName (existing : List String) (draws : Nat → Fin 16 × Fin 16)
    (now : Nat) : String :=
  generateWorkerNameLoop existing draws now 0 100

/-- getRepoName from workers.ts: the regex takes the last path segment and
strips a nonempty trailing .git; with no match the fallback is "repo". -/
def getRepoName (repoUrl : String) : String :=
  if repoUrl.contains '/' then
    let seg := (repoUrl.splitOn "/").getLastD ""
    if seg = "" then "repo"
    else if seg.endsWith ".git" && 4 < seg.length then seg.dropRight 4
    else seg
  else "repo"

/-- The character class [a-z0-9] of the slug regexes in generateBranchName. -/
def isSlugChar (c : Char) : Bool :=
  ('a' ≤ c && c ≤ 'z') || ('0' ≤ c && c ≤ '9')

/-- The replace of every maximal run of characters outside [a-z0-9] by a
single hyphen, as the global regex replace in generateBranchName does: a
kept character is emitted as is; the last character of a run of dropped
characters is emitted as one hyphen. -/
def slugCollapse : List Char → List Char
  | [] => []
  | [c] => if isSlugChar c then [c] else ['-']
  | c :: d :: cs =>
    if isSlugChar c then c :: slugCollapse (d :: cs)
    else if isSlugChar d then '-' :: slugCollapse (d :: cs)
    else slugCollapse (d :: cs)

/-- The leading-hyphen half of the final replace: the anchored alternation
removes at most one leading hyphen. -/
def dropLeadHyphen (l : List Char) : List Char :=
  if l.head? = some '-' then l.tail else l

/-- The trailing-hyphen half of the final replace: at most one trailing
hyphen is removed. -/
def dropTailHyphen (l : List Char) : List Char :=
  if l.getLast? = some '-' then l.dropLast else l

/-- The slug pipeline of generateBranchName: toLowerCase, collapse runs of
non-alphanumerics to single hyphens, slice(0, 40), strip one leading and one
trailing hyphen. Lowercasing is modelled on ASCII; a character whose
lowercase form is outside [a-z0-9] is collapsed into a hyphen either way. -/
def slugOf (task : String) : String :=
  String.mk (dropTailHyphen (dropLeadHyphen ((slugCollapse (task.toList.map Char.toLower)).take 40)))

/-- The date suffix of generateBranchName: toISOString().slice(0, 10) with
the hyphens removed, computed from the ISO timestamp passed explicitly. -/
def isoDateDigits (iso : String) : String :=
  String.mk ((iso.toList.take 10).filter (fun c => c ≠ '-'))

/-- generateBranchName from workers.ts, with the clock passed as the ISO
timestamp string. -/
def generateBranchName (task workerName iso : String) : String :=
  "feat/" ++ slugOf task ++ "-" ++ workerName ++ "-" ++ isoDateDigits iso

/-- The options record of the spawn command, from the SpawnOptions interface
in spawn.ts; the index.ts parser accepts all five. -/
structure SpawnOptions where
  task : List String
  branch : Option String := none
  port : Option Nat := none
  noDev : Bool := false
  name : Option String := none
  deriving DecidableEq, Repr

/-- Outcomes of the external boundaries crossed by spawnSingleWorker, plus
the fresh values (nanoid, clocks) it draws. cloneOk covers the whole execSync
block: clone, git config, checkout and dependency install either all succeed
or the first throw is caught by the surrounding catch. sessionResult is the
outcome of openWorkerTab: a window id, or a thrown AppleScript error. -/
structure SpawnEnv where
  workerId : String
  draws : Nat → Fin 16 × Fin 16
  now : Nat
  isoDate : String
  createdAt : String
  workersDir : String
  dirExists : Bool
  cloneOk : Bool
  sessionResult : Except Unit String

/-- How spawnSingleWorker ends: process.exit(1) from any caught failure or
the duplicate-directory check, or normal completion. -/
inductive SpawnResult
  | exited
  | ok (workerName : String)
  deriving DecidableEq, Repr

/-- The worker name allocated at the top of spawnSingleWorker: the existing
names are read from the registry and fed to generateWorkerName. -/
def spawnAllocName (env : SpawnEnv) (s : State) : String :=
  generateWorkerName (s.workers.map (fun w => w.name)) env.draws env.now

/-- The branch chosen by spawnSingleWorker: the branch option when truthy
(a supplied empty string is falsy in the JavaScript or-expression), else the
generated branch name. -/
def spawnBranchName (task workerName : String) (opts : SpawnOptions) (env : SpawnEnv) : String :=
  match opts.branch with
  | some b => if b = "" then generateBranchName task workerName env.isoDate else b
  | none => generateBranchName task workerName env.isoDate

/-- The worker record assembled by spawnSingleWorker before addWorker
persists it. The port and name options are never consulted. -/
def spawnWorkerRecord (repoUrl task : String) (opts : SpawnOptions) (env : SpawnEnv)
    (s : State) : Worker :=
  let workerName := spawnAllocName env s
  { id := env.workerId, name := workerName, repoUrl := repoUrl,
    repoName := getRepoName repoUrl,
    branch := spawnBranchName task workerName opts env, task := task,
    directory := env.workersDir ++ "/" ++ workerName, port := getNextPort s,
    createdAt := env.createdAt, status := .settingUp }

/-- spawnSingleWorker from spawn.ts: allocate identity and port, persist a
setting-up record, attach the terminal session, then mark the record running
with the returned window id. Any caught failure exits the process: before
the clone block nothing was persisted; after addWorker a session failure
exits with the record still persisted as is. -/
def spawnSingleWorker (repoUrl task : String) (opts : SpawnOptions) (env : SpawnEnv)
    (s : State) : State × SpawnResult :=
  let worker := spawnWorkerRecord repoUrl task opts env s
  if env.dirExists then (s, .exited)
  else if !env.cloneOk then (s, .exited)
  else
    let s1 := addWorker worker s
    match env.sessionResult with
    | .error _ => (s1, .exited)
    | .ok windowId =>
      (updateWorkerStatus worker.name .running (fun w => { w with terminalTab := some windowId }) s1,
       .ok worker.name)

/-- One scripted call into the terminal application, as issued by the
cleanup path: injecting text into a session (write text, with the quote
escaping of sendToItermSession applied by the caller model) or a setTimeout
pause between calls. -/
inductive TermAction
  | sendText (sessionId text : String)
  | waitMs (ms : Nat)
  deriving DecidableEq, Repr

/-- The quote escaping applied by sendToItermSession before interpolating the
command into the AppleScript source. -/
def escQuotes : List Char → List Char
  | [] => []
  | c :: cs => if c = '"' then '\\' :: '"' :: escQuotes cs else c :: escQuotes cs

/-- The string literal sent by cleanup.ts before closing a tab. In the
TypeScript source it is written with an escaped backslash, so its value is
the four characters backslash, x, zero, three, not the ETX control
character. -/
def ctrlCText : String := "\\x03"

/-- Outcomes of the external boundaries crossed by the single-worker cleanup:
whether sendToItermSession throws, whether closeItermTab's scripting call
throws (it swallows that itself), whether the directory exists, and whether
rmSync and the rm -rf fallback throw. -/
structure CleanupEnv where
  sendFails : Bool := false
  closeFails : Bool := false
  dirExists : Bool := true
  rmFails : Bool := false
  rmrfFails : Bool := false
  deriving DecidableEq, Repr

/-- How the single-worker cleanup ends: exit(1) on an unknown worker, exit(1)
from the outer catch when directory removal fails both ways, or success. -/
inductive CleanupResult
  | exitedNotFound
  | exitedError
  | done (workerName : String)
  deriving DecidableEq, Repr

/-- The tab-closing step of cleanup.ts for a worker with a terminal tab: send
the interrupt text, pause 500 ms, then closeItermTab writes exit. A throw
from the send skips the rest of the inner try block; every failure is
swallowed by the inner catch (or by closeItermTab itself). -/
def closeTabTrace (tab : String) (env : CleanupEnv) : List TermAction :=
  if env.sendFails then [.sendText tab (String.mk (escQuotes ctrlCText.toList))]
  else [.sendText tab (String.mk (escQuotes ctrlCText.toList)), .waitMs 500, .sendText tab "exit"]

/-- cleanup from cleanup.ts for a single worker: look up the record, close
the tab best-effort, delete the directory (a throw from both rmSync and the
rm -rf fallback reaches the outer catch and exits before the record is
removed), remove the record, and clear the window hint when no workers
remain. The returned list is the trace of terminal calls attempted. -/
def cleanupSingle (nameOrId : String) (env : CleanupEnv) (s : State) :
    State × CleanupResult × List TermAction :=
  match getWorker nameOrId s with
  | none => (s, .exitedNotFound, [])
  | some w =>
    let trace :=
      match w.terminalTab with
      | some tab => closeTabTrace tab env
      | none => []
    if env.dirExists && env.rmFails && env.rmrfFails then
      (s, .exitedError, trace)
    else
      let s1 := (removeWorker nameOrId s).2
      let s2 := if s1.workers.isEmpty then clearItermWindowId s1 else s1
      (s2, .done w.name, trace)

/-- The result of cleanupAll: the final state, the names listed by the
dry run, and the per-worker success and failure counts. -/
structure CleanupAllOut where
  state : State
  listed : List String
  cleaned : Nat
  failed : Nat
  deriving DecidableEq, Repr

/-- The forced loop of cleanupAll, iterating over the snapshot of workers
taken before the loop. dirFail w means both rmSync and the rm -rf fallback
throw for w's directory, so the outer catch counts a failure and the record
survives; otherwise the record is removed by id. Tab closing is fully
swallowed and touches no registry state. -/
def cleanupAllLoop (dirFail : Worker → Bool) : List Worker → State → State × Nat × Nat
  | [], s => (s, 0, 0)
  | w :: ws, s =>
    if dirFail w then
      let r := cleanupAllLoop dirFail ws s
      (r.1, r.2.1, r.2.2 + 1)
    else
      let s1 := (removeWorker w.id s).2
      let r := cleanupAllLoop dirFail ws s1
      (r.1, r.2.1 + 1, r.2.2)

/-- cleanupAll from cleanup.ts: an empty registry returns before the force
check; without force it only lists the names; with force it processes every
record independently and clears the window hint at the end. -/
def cleanupAll (force : Bool) (dirFail : Worker → Bool) (s : State) : CleanupAllOut :=
  let workers := s.workers
  if workers.isEmpty then { state := s, listed := [], cleaned := 0, failed := 0 }
  else if !force then { state := s, listed := workers.map (·.name), cleaned := 0, failed := 0 }
  else
    let r := cleanupAllLoop dirFail workers s
    { state := clearItermWindowId r.1, listed := [], cleaned := r.2.1, failed := r.2.2 }

/-- One registry-mutating command of the tool, with the outcomes of its
external boundaries attached. -/
inductive Op
  | spawnOp (repoUrl task : String) (opts : SpawnOptions) (env : SpawnEnv)
  | cleanupOp (nameOrId : String) (env : CleanupEnv)

/-- The state transition of one command. -/
def applyOp (s : State) : Op → State
  | .spawnOp r t o e => (spawnSingleWorker r t o e s).1
  | .cleanupOp x e => (cleanupSingle x e s).1

/-- Run a sequence of commands from a starting state. -/
def runOps : State → List Op → State
  | s, [] => s
  | s, op :: ops => runOps (applyOp s op) ops

/-- A spawn attempt persists a worker record exactly when the duplicate
directory check passes and the clone block succeeds; the record is persisted
before the terminal session is attempted. -/
def persistsB : Op → Bool
  | .spawnOp _ _ _ e => !e.dirExists && e.cloneOk
  | .cleanupOp _ _ => false

/-- A spawn op whose openWorkerTab call returned a window id. -/
def sessionOkB : Op → Bool
  | .spawnOp _ _ _ e =>
    match e.sessionResult with
    | .ok _ => true
    | .error _ => false
  | .cleanupOp _ _ => false

/-- Whether an op is a spawn attempt. -/
def isSpawnB : Op → Bool
  | .spawnOp _ _ _ _ => true
  | .cleanupOp _ _ => false

/-- The number of record-persisting spawns in a command sequence. -/
def countPersist (ops : List Op) : Nat := (ops.filter persistsB).length

/-- The ports of the active worker records, in insertion order. -/
def portsOf (s : State) : List Nat := s.workers.map (·.port)

/-- Distinctness of identifiers across worker records: distinct ids, distinct
names, and no record's name equal to another record's id. The spec's data
model requires name uniqueness among active workers, and ids are fresh
nanoids. -/
def workerRel (a b : Worker) : Prop :=
  a.id ≠ b.id ∧ a.name ≠ b.name ∧ a.id ≠ b.name ∧ a.name ≠ b.id

instance (a b : Worker) : Decidable (workerRel a b) := by
  unfold workerRel; infer_instance

/-- A well-formed active worker list: identifiers pairwise distinct. -/
def wfWorkers (L : List Worker) : Prop := L.Pairwise workerRel

instance (L : List Worker) : Decidable (wfWorkers L) := by
  unfold wfWorkers; infer_instance

/-! Helper lemmas about the registry primitives. -/

lemma matchesB_eq_false {x : String} {w : Worker} (h1 : w.name ≠ x) (h2 : w.id ≠ x) :
    matchesB x w = false := by
  simp [matchesB, h1, h2]

lemma removeFirst_all_false (p : Worker → Bool) :
    ∀ l : List Worker, (∀ w ∈ l, p w = false) → removeFirst p l = (none, l) := by
  intro l h
  induction l with
  | nil => rfl
  | cons w ws ih =>
    have hw := h w (List.mem_cons_self w ws)
    have hws := ih (fun v hv => h v (List.mem_cons_of_mem w hv))
    simp [removeFirst, hw, hws]

lemma removeFirst_append (p : Worker → Bool) (w : Worker) (hw : p w = true) :
    ∀ l₁ l₂ : List Worker, (∀ v ∈ l₁, p v = false) →
      removeFirst p (l₁ ++ w :: l₂) = (some w, l₁ ++ l₂) := by
  intro l₁
  induction l₁ with
  | nil => intro l₂ _; simp [removeFirst, hw]
  | cons v vs ih =>
    intro l₂ h
    have hv := h v (List.mem_cons_self v vs)
    have hvs := ih l₂ (fun u hu => h u (List.mem_cons_of_mem v hu))
    simp [removeFirst, hv, hvs]

lemma removeWorker_offset_window (x : String) (s : State) :
    ((removeWorker x s).2).nextPortOffset = s.nextPortOffset ∧
    ((removeWorker x s).2).itermWindowId = s.itermWindowId := by
  unfold removeWorker
  rcases h : removeFirst (matchesB x) s.workers with ⟨o, ws⟩
  cases o <;> simp

/-- C9: loadState never throws: for every content of the persisted store,
absent, unreadable, or corrupt, it returns the default empty state (no
workers, nextPortOffset 0, no shared-window handle) and the error is never
surfaced to the caller. The whole body is one try/catch with an empty catch
clause, so every failing read or parse falls through to DEFAULT_STATE; that
loadState is a total function is the never-throws part. -/
theorem loadState_swallows_corruption (disk : DiskRead)
    (parseJson : String → Except Unit State)
    (h : disk = DiskRead.absent ∨ disk = DiskRead.readError ∨
         ∃ data, disk = DiskRead.content data ∧ parseJson data = .error ()) :
    loadState disk parseJson = DEFAULT_STATE ∧
    DEFAULT_STATE.workers = [] ∧ DEFAULT_STATE.nextPortOffset = 0 ∧
    DEFAULT_STATE.itermWindowId = none := by
  refine ⟨?_, rfl, rfl, rfl⟩
  rcases h with rfl | rfl | ⟨data, rfl, hp⟩
  · rfl
  · rfl
  · simp [loadState, hp]

/-- Witness for C9 at a concrete corrupt store. -/
theorem loadState_swallows_corruption_witness :
    loadState (DiskRead.content "not json") (fun _ => .error ()) = DEFAULT_STATE ∧
    DEFAULT_STATE.workers = [] ∧ DEFAULT_STATE.nextPortOffset = 0 ∧
    DEFAULT_STATE.itermWindowId = none :=
  loadState_swallows_corruption _ _ (Or.inr (Or.inr ⟨"not json", rfl, rfl⟩))

/-- C8: removing a worker by name and by id are the same operation when both
refer to the same record (under distinctness of the identifiers of the
active records), both return the removed record; an identifier matching no
record is a no-op returning none and leaving the workers collection
unchanged (and, being a total function, it never throws). -/
theorem removeWorker_by_name_eq_by_id (s : State) (w : Worker)
    (hwf : wfWorkers s.workers) (hmem : w ∈ s.workers) :
    removeWorker w.name s = removeWorker w.id s ∧
    (removeWorker w.name s).1 = some w ∧
    (∃ l₁ l₂, s.workers = l₁ ++ w :: l₂ ∧
        (removeWorker w.name s).2 = { s with workers := l₁ ++ l₂ }) ∧
    (∀ x, (∀ v ∈ s.workers, matchesB x v = false) →
        removeWorker x s = (none, s)) := by
  obtain ⟨l₁, l₂, hsplit⟩ := List.append_of_mem hmem
  have hrel : ∀ v ∈ l₁, workerRel v w := by
    have hpw := List.pairwise_append.mp (hsplit ▸ hwf)
    intro v hv
    exact hpw.2.2 v hv w (List.mem_cons_self w l₂)
  have hname : removeFirst (matchesB w.name) s.workers = (some w, l₁ ++ l₂) := by
    rw [hsplit]
    exact removeFirst_append _ _ (by simp [matchesB]) _ _
      (fun v hv => matchesB_eq_false (hrel v hv).2.1 (hrel v hv).2.2.1)
  have hid : removeFirst (matchesB w.id) s.workers = (some w, l₁ ++ l₂) := by
    rw [hsplit]
    exact removeFirst_append _ _ (by simp [matchesB]) _ _
      (fun v hv => matchesB_eq_false (hrel v hv).2.2.2 (hrel v hv).1)
  refine ⟨?_, ?_, ⟨l₁, l₂, hsplit, ?_⟩, ?_⟩
  · unfold removeWorker; rw [hname, hid]
  · unfold removeWorker; rw [hname]
  · unfold removeWorker; rw [hname]
  · intro x hx; unfold removeWorker; rw [removeFirst_all_false _ _ hx]

/-- A first concrete worker used by witnesses. -/
def wA : Worker :=
  { id := "idA", name := "calm-owl", repoUrl := "u", repoName := "r",
    branch := "bA", task := "tA", directory := "/w/calm-owl", port := 3100,
    createdAt := "c", status := .running, terminalTab := some "sA" }

/-- A second concrete worker used by witnesses. -/
def wB : Worker :=
  { id := "idB", name := "bold-fox", repoUrl := "u", repoName := "r",
    branch := "bB", task := "tB", directory := "/w/bold-fox", port := 3110,
    createdAt := "c", status := .running, terminalTab := some "sB" }

/-- A registry state holding the two concrete workers. -/
def stAB : State := { workers := [wA, wB], nextPortOffset := 2 }

/-- C10: the worker port is always basePort plus nextPortOffset times
portIncrement and the name is always freshly generated from the word lists,
for every value of the port and name options: two option records that agree
on the fields spawnSingleWorker reads (task, branch, noDev) but differ
arbitrarily in port and name produce identical runs, and only a truthy
branch option overrides the generated branch. -/
theorem spawn_ignores_port_and_name_options
    (repoUrl task : String) (o₁ o₂ : SpawnOptions) (env : SpawnEnv) (s : State)
    (_htask : o₁.task = o₂.task) (hbranch : o₁.branch = o₂.branch)
    (_hdev : o₁.noDev = o₂.noDev) :
    spawnSingleWorker repoUrl task o₁ env s = spawnSingleWorker repoUrl task o₂ env s ∧
    (spawnWorkerRecord repoUrl task o₁ env s).port
      = CONFIG.basePort + s.nextPortOffset * CONFIG.portIncrement ∧
    (spawnWorkerRecord repoUrl task o₁ env s).name
      = generateWorkerName (s.workers.map (fun w => w.name)) env.draws env.now ∧
    (∀ b, o₁.branch = some b → b ≠ "" →
        (spawnWorkerRecord repoUrl task o₁ env s).branch = b) := by
  have hrec : spawnWorkerRecord repoUrl task o₁ env s
      = spawnWorkerRecord repoUrl task o₂ env s := by
    unfold spawnWorkerRecord spawnBranchName
    rw [hbranch]
  refine ⟨?_, rfl, rfl, ?_⟩
  · unfold spawnSingleWorker
    rw [hrec]
  · intro b hb hbne
    unfold spawnWorkerRecord spawnBranchName
    rw [hb]
    simp [hbne]

/-- Concrete options supplying the ignored port and name. -/
def optsPN : SpawnOptions :=
  { task := ["add auth"], branch := some "custom", port := some 9999, name := some "zeta" }

/-- The same options without port and name. -/
def optsB : SpawnOptions := { task := ["add auth"], branch := some "custom" }

/-- A successful spawn environment used by witnesses. -/
def env0 : SpawnEnv :=
  { workerId := "id1", draws := fun _ => (0, 0), now := 0,
    isoDate := "2026-01-02T03:04:05.000Z", createdAt := "t0",
    workersDir := "/w", dirExists := false, cloneOk := true,
    sessionResult := .ok "w42" }

/-- The same environment with openWorkerTab throwing. -/
def env0fail : SpawnEnv := { env0 with sessionResult := .error () }

/-- Witness for C10 at concrete differing options. -/
theorem spawn_ignores_port_and_name_options_witness :
    spawnSingleWorker "https://github.com/acme/app" "add auth" optsPN env0 DEFAULT_STATE
      = spawnSingleWorker "https://github.com/acme/app" "add auth" optsB env0 DEFAULT_STATE ∧
    (spawnWorkerRecord "https://github.com/acme/app" "add auth" optsPN env0 DEFAULT_STATE).port
      = CONFIG.basePort + DEFAULT_STATE.nextPortOffset * CONFIG.portIncrement ∧
    (spawnWorkerRecord "https://github.com/acme/app" "add auth" optsPN env0 DEFAULT_STATE).name
      = generateWorkerName (DEFAULT_STATE.workers.map (fun w => w.name)) env0.draws env0.now ∧
    (∀ b, optsPN.branch = some b → b ≠ "" →
        (spawnWorkerRecord "https://github.com/acme/app" "add auth" optsPN env0 DEFAULT_STATE).branch = b) :=
  spawn_ignores_port_and_name_options _ _ _ _ _ _ rfl rfl rfl

/-- C1 (code bug): the first-ever successful spawn is claimed to establish
the shared-window hint, but spawnSingleWorker never calls setItermWindowId
(the setter has no caller anywhere in the sources), so after a successful
spawn from the empty default state the workers collection is nonempty while
itermWindowId is still none, falsifying the claimed iff; in general no spawn
run modifies the hint. -/
theorem spawn_never_sets_window_hint :
    (∀ (repoUrl task : String) (opts : SpawnOptions) (env : SpawnEnv) (s : State),
        (spawnSingleWorker repoUrl task opts env s).1.itermWindowId = s.itermWindowId) ∧
    (spawnSingleWorker "https://github.com/acme/app" "add auth" optsB env0 DEFAULT_STATE).1.workers ≠ [] ∧
    (spawnSingleWorker "https://github.com/acme/app" "add auth" optsB env0 DEFAULT_STATE).1.itermWindowId = none := by
  refine ⟨?_, by decide, by decide⟩
  intro repoUrl task opts env s
  unfold spawnSingleWorker
  cases hde : env.dirExists <;> cases hc : env.cloneOk <;>
    cases hsr : env.sessionResult <;>
      simp [hde, hc, hsr, addWorker, updateWorkerStatus]

/-- C2 (code bug): when openWorkerTab throws after the record was written,
the catch clause of spawnSingleWorker only reports and exits the process;
the persisted record keeps status setting-up and is never marked failed. -/
theorem spawn_session_failure_leaves_setting_up
    (repoUrl task : String) (opts : SpawnOptions) (env : SpawnEnv) (s : State)
    (hdir : env.dirExists = false) (hclone : env.cloneOk = true)
    (hsess : env.sessionResult = .error ()) :
    (spawnSingleWorker repoUrl task opts env s).2 = .exited ∧
    (spawnSingleWorker repoUrl task opts env s).1.workers
      = s.workers ++ [spawnWorkerRecord repoUrl task opts env s] ∧
    (spawnWorkerRecord repoUrl task opts env s).status = .settingUp := by
  refine ⟨?_, ?_, rfl⟩ <;> simp [spawnSingleWorker, hdir, hclone, hsess, addWorker]

/-- Witness for C2: a concrete spawn whose session creation fails. -/
theorem spawn_session_failure_leaves_setting_up_witness :
    (spawnSingleWorker "https://github.com/acme/app" "add auth" optsB env0fail DEFAULT_STATE).2 = .exited ∧
    (spawnSingleWorker "https://github.com/acme/app" "add auth" optsB env0fail DEFAULT_STATE).1.workers
      = DEFAULT_STATE.workers ++ [spawnWorkerRecord "https://github.com/acme/app" "add auth" optsB env0fail DEFAULT_STATE] ∧
    (spawnWorkerRecord "https://github.com/acme/app" "add auth" optsB env0fail DEFAULT_STATE).status = .settingUp :=
  spawn_session_failure_leaves_setting_up _ _ _ _ _ rfl rfl rfl

/-- Witness for C8 at a concrete two-worker registry. -/
theorem removeWorker_by_name_eq_by_id_witness :
    removeWorker wB.name stAB = removeWorker wB.id stAB ∧
    (removeWorker wB.name stAB).1 = some wB ∧
    (∃ l₁ l₂, stAB.workers = l₁ ++ wB :: l₂ ∧
        (removeWorker wB.name stAB).2 = { stAB with workers := l₁ ++ l₂ }) ∧
    (∀ x, (∀ v ∈ stAB.workers, matchesB x v = false) →
        removeWorker x stAB = (none, stAB)) :=
  removeWorker_by_name_eq_by_id stAB wB (by decide) (by decide)

/-- C6 counterexample: the claim quantifies over every outcome of the random
draws, but when all 100 draws collide the timestamp fallback is returned
without a freshness check, so an input set containing both the drawn name
and the fallback name makes generateWorkerName return a member of the set,
even though the set (2 names) is far smaller than the 256-name cross
product. -/
theorem generateWorkerName_can_return_existing :
    generateWorkerName ["swift-fox", "worker-123"] (fun _ => (0, 0)) 123 = "worker-123" ∧
    "worker-123" ∈ ["swift-fox", "worker-123"] ∧
    ["swift-fox", "worker-123"].length < adjectives.length * animals.length := by
  refine ⟨?_, by decide, by decide⟩
  decide

/-- C6 as amended: generateWorkerName never returns a name present in
existingNames provided the timestamp fallback name is itself not in the set;
each of the up to 100 drawn names is returned only after a membership check,
and only the exhaustion fallback is returned unchecked. -/
theorem generateWorkerName_avoids_existing
    (existing : List String) (draws : Nat → Fin 16 × Fin 16) (now : Nat)
    (hfb : ("worker-" ++ toString now) ∉ existing) :
    generateWorkerName existing draws now ∉ existing := by
  unfold generateWorkerName
  generalize 0 = i
  generalize hfuel : 100 = fuel
  clear hfuel
  induction fuel generalizing i with
  | zero => exact hfb
  | succ n ih =>
    simp only [generateWorkerNameLoop]
    by_cases hmem : drawnName (draws i) ∈ existing
    · rw [if_pos hmem]
      exact ih (i + 1)
    · rw [if_neg hmem]
      exact hmem

/-- Witness for the amended C6 at a concrete input set. -/
theorem generateWorkerName_avoids_existing_witness :
    generateWorkerName ["swift-fox"] (fun _ => ((0 : Fin 16), (0 : Fin 16))) 7 ∉ ["swift-fox"] :=
  generateWorkerName_avoids_existing _ _ _ (by decide)

/-- A registry state holding only the first concrete worker. -/
def stA : State := { workers := [wA], nextPortOffset := 1 }

/-- C4 (code bug): the cleanup of a worker with a session handle does send
some text, wait 500 milliseconds, and then request termination via an exit
write, swallowing failures of these steps; but the text sent first is the
four-character literal backslash, x, zero, three (the TypeScript source
escapes the backslash), not the ETX interrupt character 0x03 the in-code
comment (send Ctrl+C first) and the claim describe. The final conjuncts show
a failing send is swallowed: the cleanup still completes and removes the
record. -/
theorem cleanup_close_sends_literal_backslash_text :
    (cleanupSingle "calm-owl" {} stA).2.2
      = [TermAction.sendText "sA" ctrlCText, TermAction.waitMs 500,
         TermAction.sendText "sA" "exit"] ∧
    ctrlCText.toList = ['\\', 'x', '0', '3'] ∧
    ctrlCText ≠ String.mk [Char.ofNat 3] ∧
    (cleanupSingle "calm-owl" {} stA).1 = { workers := [], nextPortOffset := 1 } ∧
    (cleanupSingle "calm-owl" {} stA).2.1 = CleanupResult.done "calm-owl" ∧
    (∀ sf cf : Bool,
        (cleanupSingle "calm-owl" { sendFails := sf, closeFails := cf } stA).2.1
          = CleanupResult.done "calm-owl" ∧
        (cleanupSingle "calm-owl" { sendFails := sf, closeFails := cf } stA).1.workers = []) := by
  decide

lemma cleanupAllLoop_spec (dirFail : Worker → Bool) :
    ∀ (l kept : List Worker) (s : State),
      s.workers = kept ++ l →
      (∀ w ∈ l, ∀ v ∈ kept, matchesB w.id v = false) →
      l.Pairwise (fun a b => matchesB b.id a = false) →
      (cleanupAllLoop dirFail l s).1.workers = kept ++ l.filter dirFail ∧
      (cleanupAllLoop dirFail l s).2.1 = (l.filter (fun w => !dirFail w)).length ∧
      (cleanupAllLoop dirFail l s).2.2 = (l.filter dirFail).length ∧
      (cleanupAllLoop dirFail l s).1.nextPortOffset = s.nextPortOffset ∧
      (cleanupAllLoop dirFail l s).1.itermWindowId = s.itermWindowId := by
  intro l
  induction l with
  | nil =>
    intro kept s hw _ _
    simp [cleanupAllLoop, hw]
  | cons w ws ih =>
    intro kept s hw hkept hpw
    rcases List.pairwise_cons.mp hpw with ⟨hw_ws, hpw'⟩
    cases hdf : dirFail w with
    | true =>
      have hkept' : ∀ u ∈ ws, ∀ v ∈ kept ++ [w], matchesB u.id v = false := by
        intro u hu v hv
        rcases List.mem_append.mp hv with hv | hv
        · exact hkept u (List.mem_cons_of_mem w hu) v hv
        · rw [List.mem_singleton.mp hv]
          exact hw_ws u hu
      have hmain := ih (kept ++ [w]) s (by rw [hw]; simp) hkept' hpw'
      simp only [cleanupAllLoop, hdf, if_true]
      refine ⟨?_, ?_, ?_, hmain.2.2.2.1, hmain.2.2.2.2⟩
      · rw [hmain.1, List.filter_cons_of_pos (by simp [hdf]), List.append_assoc]
        rfl
      · rw [hmain.2.1, List.filter_cons_of_neg (by simp [hdf])]
      · rw [hmain.2.2.1, List.filter_cons_of_pos (by simp [hdf])]
        simp [Nat.add_comm]
    | false =>
      have hrm : removeWorker w.id s = (some w, { s with workers := kept ++ ws }) := by
        unfold removeWorker
        rw [hw, removeFirst_append _ _ (by simp [matchesB]) _ _
          (fun v hv => hkept w (List.mem_cons_self w ws) v hv)]
      have hmain := ih kept { s with workers := kept ++ ws } rfl
        (fun u hu v hv => hkept u (List.mem_cons_of_mem w hu) v hv) hpw'
      simp only [cleanupAllLoop, hdf, if_false, Bool.false_eq_true, hrm]
      refine ⟨?_, ?_, ?_, ?_, ?_⟩
      · rw [hmain.1, List.filter_cons_of_neg (by simp [hdf])]
      · rw [hmain.2.1, List.filter_cons_of_pos (by simp [hdf])]
        simp [Nat.add_comm]
      · rw [hmain.2.2.1, List.filter_cons_of_neg (by simp [hdf])]
      · rw [hmain.2.2.2.1]
      · rw [hmain.2.2.2.2]

/-- C5: cleanupAll without force mutates no registry state and only lists
the names of exactly the existing workers; with force it processes every
record independently, so one worker whose directory deletion throws does not
prevent the other workers from being removed (exactly the failing records
survive), the success and failure counts are the respective tallies, and the
shared-window hint is cleared afterwards. -/
theorem cleanupAll_dry_run_and_force (s : State) (dirFail : Worker → Bool)
    (hwf : wfWorkers s.workers) :
    (cleanupAll false dirFail s).state = s ∧
    (cleanupAll false dirFail s).listed = s.workers.map (fun w => w.name) ∧
    (cleanupAll false dirFail s).cleaned = 0 ∧
    (cleanupAll false dirFail s).failed = 0 ∧
    (s.workers ≠ [] →
      (cleanupAll true dirFail s).state.workers = s.workers.filter dirFail ∧
      (cleanupAll true dirFail s).cleaned = (s.workers.filter (fun w => !dirFail w)).length ∧
      (cleanupAll true dirFail s).failed = (s.workers.filter dirFail).length ∧
      (cleanupAll true dirFail s).state.itermWindowId = none ∧
      (cleanupAll true dirFail s).state.nextPortOffset = s.nextPortOffset) := by
  cases hemp : s.workers.isEmpty with
  | true =>
    have hnil : s.workers = [] := List.isEmpty_iff.mp hemp
    refine ⟨?_, ?_, ?_, ?_, fun hne => absurd hnil hne⟩ <;>
      simp [cleanupAll, hemp, hnil]
  | false =>
    have hloop := cleanupAllLoop_spec dirFail s.workers [] s rfl
      (fun w _ v hv => absurd hv (List.not_mem_nil v))
      (hwf.imp (fun hab => matchesB_eq_false hab.2.2.2 hab.1))
    refine ⟨?_, ?_, ?_, ?_, fun _ => ?_⟩
    · simp [cleanupAll, hemp]
    · simp [cleanupAll, hemp]
    · simp [cleanupAll, hemp]
    · simp [cleanupAll, hemp]
    · simp only [cleanupAll, hemp, Bool.not_true, if_false, Bool.false_eq_true]
      refine ⟨?_, ?_, ?_, ?_, ?_⟩ <;>
        simp [clearItermWindowId, hloop.1, hloop.2.1, hloop.2.2.1,
          hloop.2.2.2.1, hloop.2.2.2.2]

/-- A third concrete worker used by witnesses. -/
def wC : Worker :=
  { id := "idC", name := "keen-wolf", repoUrl := "u", repoName := "r",
    branch := "bC", task := "tC", directory := "/w/keen-wolf", port := 3120,
    createdAt := "c", status := .running, terminalTab := some "sC" }

/-- A registry state holding three concrete workers. -/
def stABC : State := { workers := [wA, wB, wC], nextPortOffset := 3 }

/-- The directory-deletion failure oracle failing exactly on the middle
worker. -/
def midFail : Worker → Bool := fun w => w.name == "bold-fox"

/-- Witness for C5: three workers, the middle directory deletion throwing. -/
theorem cleanupAll_dry_run_and_force_witness :
    (cleanupAll false midFail stABC).state = stABC ∧
    (cleanupAll false midFail stABC).listed = stABC.workers.map (fun w => w.name) ∧
    (cleanupAll false midFail stABC).cleaned = 0 ∧
    (cleanupAll false midFail stABC).failed = 0 ∧
    (stABC.workers ≠ [] →
      (cleanupAll true midFail stABC).state.workers = stABC.workers.filter midFail ∧
      (cleanupAll true midFail stABC).cleaned = (stABC.workers.filter (fun w => !midFail w)).length ∧
      (cleanupAll true midFail stABC).failed = (stABC.workers.filter midFail).length ∧
      (cleanupAll true midFail stABC).state.itermWindowId = none ∧
      (cleanupAll true midFail stABC).state.nextPortOffset = stABC.nextPortOffset) :=
  cleanupAll_dry_run_and_force stABC midFail (by decide)

lemma spawnWorkerRecord_port (r t : String) (o : SpawnOptions) (e : SpawnEnv) (s : State) :
    (spawnWorkerRecord r t o e s).port = getNextPort s := rfl

lemma updateFirst_map_port (p : Worker → Bool) (f : Worker → Worker)
    (hf : ∀ w, (f w).port = w.port) :
    ∀ l : List Worker, (updateFirst p f l).map (fun w => w.port) = l.map (fun w => w.port) := by
  intro l
  induction l with
  | nil => rfl
  | cons w ws ih => by_cases hp : p w <;> simp [updateFirst, hp, hf, ih]

lemma updateWorkerStatus_offset (x : String) (st : Status) (f : Worker → Worker) (s : State) :
    (updateWorkerStatus x st f s).nextPortOffset = s.nextPortOffset := rfl

lemma updateWorkerStatus_window (x : String) (st : Status) (f : Worker → Worker) (s : State) :
    (updateWorkerStatus x st f s).itermWindowId = s.itermWindowId := rfl

lemma addWorker_portsOf (w : Worker) (s : State) :
    portsOf (addWorker w s) = portsOf s ++ [w.port] := by
  simp [portsOf, addWorker]

lemma updateTab_portsOf (x : String) (st : Status) (wid : String) (s : State) :
    portsOf (updateWorkerStatus x st (fun w => { w with terminalTab := some wid }) s)
      = portsOf s := by
  simp only [portsOf, updateWorkerStatus]
  generalize s.workers = l
  induction l with
  | nil => rfl
  | cons w ws ih => by_cases hp : matchesB x w <;> simp [updateFirst, hp, ih]

lemma bool_eq_false {b : Bool} (h : ¬ b = true) : b = false := by
  revert h
  cases b <;> simp

lemma applyOp_offset (s : State) (op : Op) :
    (applyOp s op).nextPortOffset = s.nextPortOffset + (if persistsB op then 1 else 0) := by
  cases op with
  | spawnOp r t o e =>
    simp only [applyOp, spawnSingleWorker, persistsB]
    by_cases hde : e.dirExists = true
    · simp [hde]
    · have hde' := bool_eq_false hde
      by_cases hc : e.cloneOk = true
      · cases hsr : e.sessionResult <;>
          simp [hde', hc, hsr, addWorker, updateWorkerStatus]
      · have hc' := bool_eq_false hc
        simp [hde', hc']
  | cleanupOp x e =>
    have hro := removeWorker_offset_window x s
    simp only [applyOp, cleanupSingle, persistsB]
    rcases hg : getWorker x s with _ | w
    · simp
    · by_cases hcond : (e.dirExists && e.rmFails && e.rmrfFails) = true
      · simp [hcond]
      · by_cases hie : ((removeWorker x s).2).workers.isEmpty
        · simp [hcond, hie, clearItermWindowId, hro.1]
        · simp [hcond, hie, hro.1]

lemma runOps_offset : ∀ (ops : List Op) (s : State),
    (runOps s ops).nextPortOffset = s.nextPortOffset + countPersist ops := by
  intro ops
  induction ops with
  | nil => intro s; simp [runOps, countPersist]
  | cons op ops ih =>
    intro s
    simp only [runOps]
    rw [ih, applyOp_offset]
    unfold countPersist
    by_cases hp : persistsB op = true
    · simp [List.filter_cons, hp]
      omega
    · simp [List.filter_cons, hp]

lemma spawn_applyOp_ports (s : State) (op : Op) (hsp : isSpawnB op = true)
    (hso : persistsB op = true → sessionOkB op = true) :
    portsOf (applyOp s op)
      = if persistsB op then portsOf s ++ [getNextPort s] else portsOf s := by
  cases op with
  | cleanupOp x e => simp [isSpawnB] at hsp
  | spawnOp r t o e =>
    simp only [applyOp, spawnSingleWorker, persistsB]
    by_cases hde : e.dirExists = true
    · simp [hde]
    · have hde' := bool_eq_false hde
      by_cases hc : e.cloneOk = true
      · cases hsr : e.sessionResult with
        | error u =>
          have := hso (by simp [persistsB, hde', hc])
          simp [sessionOkB, hsr] at this
        | ok wid =>
          simp only [hde', hc, hsr, Bool.not_false, Bool.not_true, Bool.true_and,
            Bool.false_eq_true, if_false, if_true, ite_true, ite_false]
          rw [updateTab_portsOf, addWorker_portsOf, spawnWorkerRecord_port]
      · have hc' := bool_eq_false hc
        simp [hde', hc']

lemma ports_run (ops : List Op) :
    ∀ s : State,
      (∀ op ∈ ops, isSpawnB op = true ∧ (persistsB op = true → sessionOkB op = true)) →
      portsOf s = (List.range s.nextPortOffset).map
        (fun i => CONFIG.basePort + i * CONFIG.portIncrement) →
      portsOf (runOps s ops) = (List.range (runOps s ops).nextPortOffset).map
        (fun i => CONFIG.basePort + i * CONFIG.portIncrement) := by
  induction ops with
  | nil =>
    intro s _ hinv
    simpa [runOps] using hinv
  | cons op ops ih =>
    intro s hops hinv
    simp only [runOps]
    apply ih _ (fun o ho => hops o (List.mem_cons_of_mem _ ho))
    have hop := hops op (List.mem_cons_self _ _)
    rw [spawn_applyOp_ports s op hop.1 hop.2, applyOp_offset]
    by_cases hp : persistsB op = true
    · simp only [hp, if_true]
      rw [hinv, List.range_succ]
      simp [getNextPort]
    · simp [hp, hinv]

/-- C3: starting from the default registry, for every sequence of spawn
attempts with no intervening cleanup in which every attempt that persisted a
record completed its session, the assigned ports are exactly basePort plus
i times portIncrement for i below the number of record-persisting spawns, in
order and without duplicates; and for every sequence of spawns and cleanups
whatsoever, nextPortOffset equals the number of spawns that persisted a
record: addWorker increments it by exactly 1, removal never decrements it,
and attempts that never persisted a record leave it untouched. -/
theorem ports_are_exact_and_offset_counts_spawns (ops : List Op)
    (hops : ∀ op ∈ ops, isSpawnB op = true ∧ (persistsB op = true → sessionOkB op = true)) :
    portsOf (runOps DEFAULT_STATE ops)
      = (List.range (countPersist ops)).map
          (fun i => CONFIG.basePort + i * CONFIG.portIncrement) ∧
    (portsOf (runOps DEFAULT_STATE ops)).Nodup ∧
    (∀ ops' : List Op, (runOps DEFAULT_STATE ops').nextPortOffset = countPersist ops') := by
  have hofs : ∀ ops' : List Op,
      (runOps DEFAULT_STATE ops').nextPortOffset = countPersist ops' := by
    intro ops'
    rw [runOps_offset]
    simp [DEFAULT_STATE]
  have hports := ports_run ops DEFAULT_STATE hops (by simp [portsOf, DEFAULT_STATE])
  rw [hofs ops] at hports
  refine ⟨hports, ?_, hofs⟩
  rw [hports]
  refine List.Nodup.map ?_ (List.nodup_range _)
  intro i j hij
  simp [CONFIG.basePort, CONFIG.portIncrement] at hij
  omega

/-- A spawn environment whose clone fails, persisting nothing. -/
def envCF : SpawnEnv := { env0 with cloneOk := false }

/-- A concrete trace: success, failed clone, success. -/
def opsSFS : List Op :=
  [.spawnOp "u" "t1" optsB env0, .spawnOp "u" "t2" optsB envCF, .spawnOp "u" "t3" optsB env0]

/-- Witness for C3 at the concrete three-attempt trace. -/
theorem ports_are_exact_and_offset_counts_spawns_witness :
    portsOf (runOps DEFAULT_STATE opsSFS)
      = (List.range (countPersist opsSFS)).map
          (fun i => CONFIG.basePort + i * CONFIG.portIncrement) ∧
    (portsOf (runOps DEFAULT_STATE opsSFS)).Nodup ∧
    (∀ ops' : List Op, (runOps DEFAULT_STATE ops').nextPortOffset = countPersist ops') := by
  refine ports_are_exact_and_offset_counts_spawns opsSFS ?_
  intro op hop
  simp only [opsSFS, List.mem_cons, List.not_mem_nil, or_false] at hop
  rcases hop with rfl | rfl | rfl
  · exact ⟨rfl, fun _ => rfl⟩
  · exact ⟨rfl, fun h => absurd h (by decide)⟩
  · exact ⟨rfl, fun _ => rfl⟩

/-! Lemmas for the branch-name slug. -/

/-- Absence of adjacent hyphens: the claim that the slug holds only single
hyphens. -/
def noDoubleHyphen (l : List Char) : Prop :=
  List.Chain' (fun a b => ¬(a = '-' ∧ b = '-')) l

instance (l : List Char) : Decidable (noDoubleHyphen l) := by
  unfold noDoubleHyphen; infer_instance

lemma isSlugChar_ne_hyphen {c : Char} (h : isSlugChar c = true) : c ≠ '-' := by
  intro hc
  subst hc
  exact absurd h (by decide)

lemma slugCollapse_cons_pos {a : Char} (ha : isSlugChar a = true) (cs : List Char) :
    slugCollapse (a :: cs) = a :: slugCollapse cs := by
  cases cs <;> simp [slugCollapse, ha]

lemma slugCollapse_chars : ∀ l : List Char, ∀ c ∈ slugCollapse l, isSlugChar c = true ∨ c = '-' := by
  intro l
  induction l with
  | nil => intro c hc; simp [slugCollapse] at hc
  | cons a cs ih =>
    cases cs with
    | nil =>
      intro c hc
      by_cases ha : isSlugChar a = true
      · simp [slugCollapse, ha] at hc
        subst hc
        exact Or.inl ha
      · have ha' := bool_eq_false ha
        simp [slugCollapse, ha'] at hc
        exact Or.inr hc
    | cons b cs' =>
      intro c hc
      by_cases ha : isSlugChar a = true
      · rw [slugCollapse_cons_pos ha] at hc
        rcases List.mem_cons.mp hc with rfl | hc
        · exact Or.inl ha
        · exact ih c hc
      · have ha' := bool_eq_false ha
        by_cases hb : isSlugChar b = true
        · have he : slugCollapse (a :: b :: cs') = '-' :: slugCollapse (b :: cs') := by
            simp [slugCollapse, ha', hb]
          rw [he] at hc
          rcases List.mem_cons.mp hc with rfl | hc
          · exact Or.inr rfl
          · exact ih c hc
        · have hb' := bool_eq_false hb
          have he : slugCollapse (a :: b :: cs') = slugCollapse (b :: cs') := by
            simp [slugCollapse, ha', hb']
          rw [he] at hc
          exact ih c hc

lemma slugCollapse_chain : ∀ l : List Char, noDoubleHyphen (slugCollapse l) := by
  intro l
  unfold noDoubleHyphen
  induction l with
  | nil => simp [slugCollapse]
  | cons a cs ih =>
    cases cs with
    | nil =>
      by_cases ha : isSlugChar a = true
      · simp [slugCollapse, ha]
      · have ha' := bool_eq_false ha
        simp [slugCollapse, ha']
    | cons b cs' =>
      by_cases ha : isSlugChar a = true
      · rw [slugCollapse_cons_pos ha, List.chain'_cons']
        exact ⟨fun y _ hab => absurd hab.1 (isSlugChar_ne_hyphen ha), ih⟩
      · have ha' := bool_eq_false ha
        by_cases hb : isSlugChar b = true
        · have he : slugCollapse (a :: b :: cs') = '-' :: slugCollapse (b :: cs') := by
            simp [slugCollapse, ha', hb]
          rw [he, List.chain'_cons']
          refine ⟨?_, ih⟩
          intro y hy hab
          rw [slugCollapse_cons_pos hb] at hy
          simp at hy
          subst hy
          exact absurd hab.2 (isSlugChar_ne_hyphen hb)
        · have hb' := bool_eq_false hb
          have he : slugCollapse (a :: b :: cs') = slugCollapse (b :: cs') := by
            simp [slugCollapse, ha', hb']
          rw [he]
          exact ih

lemma dropLeadHyphen_sublist (l : List Char) : List.Sublist (dropLeadHyphen l) l := by
  unfold dropLeadHyphen
  split
  · exact List.tail_sublist l
  · exact List.Sublist.refl l

lemma dropTailHyphen_sublist (l : List Char) : List.Sublist (dropTailHyphen l) l := by
  unfold dropTailHyphen
  split
  · exact List.dropLast_sublist l
  · exact List.Sublist.refl l

lemma dropLeadHyphen_chain {l : List Char} (h : noDoubleHyphen l) :
    noDoubleHyphen (dropLeadHyphen l) := by
  unfold noDoubleHyphen at h ⊢
  unfold dropLeadHyphen
  split
  · exact h.tail
  · exact h

lemma dropLeadHyphen_head {l : List Char} (h : noDoubleHyphen l) :
    (dropLeadHyphen l).head? ≠ some '-' := by
  unfold noDoubleHyphen at h
  unfold dropLeadHyphen
  split
  · case isTrue hh =>
    cases l with
    | nil => simp
    | cons a t =>
      simp only [List.head?_cons, Option.some.injEq] at hh
      subst hh
      cases t with
      | nil => simp
      | cons b t' =>
        have hR := (List.chain'_cons.mp h).1
        simp only [List.tail_cons, List.head?_cons, ne_eq, Option.some.injEq]
        intro hb
        exact hR ⟨rfl, hb⟩
  · case isFalse hh => exact hh

lemma noDoubleHyphen_reverse {l : List Char} (h : noDoubleHyphen l) :
    noDoubleHyphen l.reverse := by
  unfold noDoubleHyphen at h ⊢
  rw [List.chain'_reverse]
  exact List.Chain'.imp (fun a b hab h2 => hab ⟨h2.2, h2.1⟩) h

lemma dropTail_eq_reverse (l : List Char) :
    dropTailHyphen l = (dropLeadHyphen l.reverse).reverse := by
  unfold dropTailHyphen dropLeadHyphen
  rw [List.head?_reverse]
  by_cases h : l.getLast? = some '-'
  · simp [h, List.tail_reverse]
  · simp [h]

lemma strip_props (l0 : List Char)
    (hchars0 : ∀ c ∈ l0, isSlugChar c = true ∨ c = '-')
    (hchain0 : noDoubleHyphen l0) :
    (∀ c ∈ dropTailHyphen (dropLeadHyphen l0), isSlugChar c = true ∨ c = '-') ∧
    noDoubleHyphen (dropTailHyphen (dropLeadHyphen l0)) ∧
    (dropTailHyphen (dropLeadHyphen l0)).head? ≠ some '-' ∧
    (dropTailHyphen (dropLeadHyphen l0)).getLast? ≠ some '-' ∧
    (dropTailHyphen (dropLeadHyphen l0)).length ≤ l0.length := by
  have hchainU : noDoubleHyphen (dropLeadHyphen l0) := dropLeadHyphen_chain hchain0
  have hheadU : (dropLeadHyphen l0).head? ≠ some '-' := dropLeadHyphen_head hchain0
  have hsub : List.Sublist (dropTailHyphen (dropLeadHyphen l0)) l0 :=
    (dropTailHyphen_sublist _).trans (dropLeadHyphen_sublist _)
  refine ⟨fun c hc => hchars0 c (hsub.subset hc), ?_, ?_, ?_, hsub.length_le⟩
  · rw [dropTail_eq_reverse]
    exact noDoubleHyphen_reverse (dropLeadHyphen_chain (noDoubleHyphen_reverse hchainU))
  · unfold dropTailHyphen
    split
    · cases hu : dropLeadHyphen l0 with
      | nil => simp
      | cons a t =>
        cases t with
        | nil => simp
        | cons b t' =>
          rw [List.dropLast_cons₂, List.head?_cons]
          rw [hu, List.head?_cons] at hheadU
          simpa using hheadU
    · exact hheadU
  · rw [dropTail_eq_reverse, List.getLast?_reverse]
    exact dropLeadHyphen_head (noDoubleHyphen_reverse hchainU)

lemma slugOf_props (task : String) :
    (∀ c ∈ (slugOf task).toList, isSlugChar c = true ∨ c = '-') ∧
    noDoubleHyphen (slugOf task).toList ∧
    (slugOf task).toList.head? ≠ some '-' ∧
    (slugOf task).toList.getLast? ≠ some '-' ∧
    (slugOf task).length ≤ 40 := by
  have h := strip_props ((slugCollapse ((task.toList).map Char.toLower)).take 40)
    (fun c hc => slugCollapse_chars _ c (List.take_subset _ _ hc))
    (List.Chain'.take (slugCollapse_chain _) 40)
  exact ⟨h.1, h.2.1, h.2.2.1, h.2.2.2.1,
    le_trans h.2.2.2.2 (List.length_take_le _ _)⟩

/-- Shape of the first ten characters of a Date.toISOString() result:
four digits, hyphen, two digits, hyphen, two digits. -/
def isoShaped (iso : String) : Bool :=
  match iso.toList.take 10 with
  | [y1, y2, y3, y4, u1, m1, m2, u2, d1, d2] =>
    y1.isDigit && y2.isDigit && y3.isDigit && y4.isDigit &&
    (u1 == '-') && m1.isDigit && m2.isDigit && (u2 == '-') && d1.isDigit && d2.isDigit
  | _ => false

lemma digit_ne_hyphen {c : Char} (h : c.isDigit = true) : c ≠ '-' := by
  intro hc
  subst hc
  exact absurd h (by decide)

lemma toList_mk (l : List Char) : (String.mk l).toList = l := rfl

lemma length_mk (l : List Char) : (String.mk l).length = l.length := rfl

lemma isoDateDigits_of_shaped (iso : String) (h : isoShaped iso = true) :
    (isoDateDigits iso).length = 8 ∧ ∀ c ∈ (isoDateDigits iso).toList, c.isDigit = true := by
  unfold isoShaped at h
  unfold isoDateDigits
  simp only [length_mk, toList_mk]
  rcases h10 : iso.toList.take 10 with
    _ | ⟨y1, _ | ⟨y2, _ | ⟨y3, _ | ⟨y4, _ | ⟨u1, _ | ⟨m1, _ | ⟨m2, _ | ⟨u2, _ | ⟨d1,
      _ | ⟨d2, _ | ⟨x, rest⟩⟩⟩⟩⟩⟩⟩⟩⟩⟩⟩ <;>
    rw [h10] at h <;> simp only [] at h <;> try simp at h
  obtain ⟨⟨⟨⟨⟨⟨⟨⟨⟨h1, h2⟩, h3⟩, h4⟩, h5⟩, h6⟩, h7⟩, h8⟩, h9⟩, hd⟩ := h
  subst h5
  subst h8
  have p1 := digit_ne_hyphen h1
  have p2 := digit_ne_hyphen h2
  have p3 := digit_ne_hyphen h3
  have p4 := digit_ne_hyphen h4
  have p6 := digit_ne_hyphen h6
  have p7 := digit_ne_hyphen h7
  have p9 := digit_ne_hyphen h9
  have pd := digit_ne_hyphen hd
  constructor
  · simp [List.filter_cons, p1, p2, p3, p4, p6, p7, p9, pd]
  · intro c hc
    simp [List.filter_cons, p1, p2, p3, p4, p6, p7, p9, pd] at hc
    rcases hc with rfl | rfl | rfl | rfl | rfl | rfl | rfl | rfl <;> assumption

/-- C7: for every task string (including empty or all-punctuation tasks) and
every worker name, generateBranchName returns feat/ followed by the slug,
the worker name and the eight-digit date, joined by hyphens, where the slug
holds only lowercase alphanumerics and single hyphens (no adjacent pair),
never starts or ends with a hyphen, and has length at most 40. -/
theorem generateBranchName_shape (task workerName iso : String)
    (hiso : isoShaped iso = true) :
    generateBranchName task workerName iso
      = "feat/" ++ slugOf task ++ "-" ++ workerName ++ "-" ++ isoDateDigits iso ∧
    (∀ c ∈ (slugOf task).toList, isSlugChar c = true ∨ c = '-') ∧
    noDoubleHyphen (slugOf task).toList ∧
    (slugOf task).toList.head? ≠ some '-' ∧
    (slugOf task).toList.getLast? ≠ some '-' ∧
    (slugOf task).length ≤ 40 ∧
    (isoDateDigits iso).length = 8 ∧
    (∀ c ∈ (isoDateDigits iso).toList, c.isDigit = true) := by
  have hs := slugOf_props task
  have hd := isoDateDigits_of_shaped iso hiso
  exact ⟨rfl, hs.1, hs.2.1, hs.2.2.1, hs.2.2.2.1, hs.2.2.2.2, hd.1, hd.2⟩

/-- Witness for C7 at a concrete punctuation-laden task. -/
theorem generateBranchName_shape_witness :
    generateBranchName "Fix: the (Bug)!!" "swift-fox" "2026-01-02T03:04:05.000Z"
      = "feat/" ++ slugOf "Fix: the (Bug)!!" ++ "-" ++ "swift-fox" ++ "-"
          ++ isoDateDigits "2026-01-02T03:04:05.000Z" ∧
    (∀ c ∈ (slugOf "Fix: the (Bug)!!").toList, isSlugChar c = true ∨ c = '-') ∧
    noDoubleHyphen (slugOf "Fix: the (Bug)!!").toList ∧
    (slugOf "Fix: the (Bug)!!").toList.head? ≠ some '-' ∧
    (slugOf "Fix: the (Bug)!!").toList.getLast? ≠ some '-' ∧
    (slugOf "Fix: the (Bug)!!").length ≤ 40 ∧
    (isoDateDigits "2026-01-02T03:04:05.000Z").length = 8 ∧
    (∀ c ∈ (isoDateDigits "2026-01-02T03:04:05.000Z").toList, c.isDigit = true) :=
  generateBranchName_shape "Fix: the (Bug)!!" "swift-fox" "2026-01-02T03:04:05.000Z" (by decide)

end ParallelClaude
